import Mathlib

/-!
Verification development for the SignalWatch repository.

We shallowly embed the date-extraction component (`src/date_parser.py`,
class `DateParser`) and the scan-orchestration entry point
(`src/app.py`, route handler `scan_companies`) as executable Lean
definitions, and prove the specified properties about them.

Modelling conventions:
* Python `datetime.datetime` values produced by this program always carry a
  midnight time component (they come from parsing pure date strings), so we
  model them as calendar dates (year/month/day).  Python's `datetime`
  comparison is lexicographic on the fields, and `(a - b).days` for two
  midnight datetimes is the difference of their rata-die day numbers.
* Python machine integers are modelled as `Nat`/`Int` (they are unbounded in
  Python as well).
* Fallible operations return `Option`.
-/

namespace SignalWatch

/-- A calendar date, modelling the midnight `datetime.datetime` values that
`DateParser` produces (all of its datetimes come from parsing date-only
strings, so the time component is always zero). -/
structure Datetime where
  year : Nat
  month : Nat
  day : Nat
  deriving DecidableEq, Repr

/-- Python `datetime` ordering: lexicographic on (year, month, day)
(the time components of this program's datetimes are all zero). -/
def dtLe (a b : Datetime) : Prop :=
  a.year < b.year ∨
    (a.year = b.year ∧ (a.month < b.month ∨ (a.month = b.month ∧ a.day ≤ b.day)))

instance : DecidableRel dtLe := fun a b => by
  unfold dtLe; infer_instance

instance : IsTotal Datetime dtLe := by
  constructor; intro a b; unfold dtLe; omega

instance : IsTrans Datetime dtLe := by
  constructor; intro a b c hab hbc; unfold dtLe at *; omega

/-- Gregorian leap-year test. -/
def isLeap (y : Nat) : Bool :=
  y % 4 == 0 && (y % 100 != 0 || y % 400 == 0)

/-- Number of days in a month of a given year (0 for an invalid month). -/
def daysInMonth (y m : Nat) : Nat :=
  match m with
  | 1 => 31 | 2 => if isLeap y then 29 else 28 | 3 => 31 | 4 => 30
  | 5 => 31 | 6 => 30 | 7 => 31 | 8 => 31
  | 9 => 30 | 10 => 31 | 11 => 30 | 12 => 31
  | _ => 0

/-- Rata-die day number of a civil date (days since 1970-01-01, negative
before).  This is the standard days-from-civil algorithm; it gives the exact
value of Python's `(a - b).days` for midnight datetimes as
`toDays a - toDays b`. -/
def toDays (d : Datetime) : Int :=
  let y : Int := if d.month ≤ 2 then (d.year : Int) - 1 else (d.year : Int)
  let m : Int := (d.month : Int)
  let era : Int := (if 0 ≤ y then y else y - 399).tdiv 400
  let yoe : Int := y - era * 400
  let mp : Int := (m + 9).tmod 12
  let doy : Int := (153 * mp + 2).tdiv 5 + (d.day : Int) - 1
  let doe : Int := yoe * 365 + yoe.tdiv 4 - yoe.tdiv 100 + doy
  era * 146097 + doe - 719468

/-- `DateParser.compare_dates` (src/date_parser.py lines 187-204): with zero
tolerance, compare the `.date()` projections for equality (for our
date-valued datetimes this is plain equality); otherwise test whether the
absolute day difference is at most the tolerance. -/
def compare_dates (date1 date2 : Datetime) (tolerance_days : Int) : Bool :=
  if tolerance_days = 0 then
    decide (date1 = date2)
  else
    decide ((((toDays date1 - toDays date2).natAbs : Int)) ≤ tolerance_days)

/-- Zero-pad a numeral to the given width (used by `strftime` directives). -/
def padNum (width n : Nat) : List Char :=
  let s := (Nat.repr n).data
  List.replicate (width - s.length) '0' ++ s

/-- Full month names, in calendar order (used by the `%B` directive and by
the month-name date patterns; the list order is the order the source's
regular expressions list them in). -/
def monthNames : List String :=
  ["January", "February", "March", "April", "May", "June", "July",
   "August", "September", "October", "November", "December"]

/-- Modelled from the spec: the `strftime` formatting applied by
`DateParser.format_date`.  Only the directives the source's format table
uses (`%d`, `%m`, `%Y`, `%B`) are interpreted; other characters pass
through literally. -/
def strftime (d : Datetime) : List Char → List Char
  | [] => []
  | '%' :: c :: rest =>
    (match c with
     | 'd' => padNum 2 d.day
     | 'm' => padNum 2 d.month
     | 'Y' => padNum 4 d.year
     | 'B' => ((monthNames.getD (d.month - 1) "").data)
     | '%' => ['%']
     | c' => ['%', c']) ++ strftime d rest
  | c :: rest => c :: strftime d rest

/-- `DateParser.format_date` (src/date_parser.py lines 206-225): look the
format type up in the named-format table, defaulting to treating the
argument itself as a format string, and apply `strftime`. -/
def format_date (date : Datetime) (format_type : String) : String :=
  let format_str : String :=
    if format_type = "uk" then "%d/%m/%Y"
    else if format_type = "us" then "%m/%d/%Y"
    else if format_type = "iso" then "%Y-%m-%d"
    else if format_type = "long" then "%d %B %Y"
    else format_type
  String.mk (strftime date format_str.data)

/-- One entry of the list returned by `DateParser.find_date_mismatches`. -/
structure DateMismatch where
  expected : Datetime
  found : Datetime
  difference_days : Int
  expected_str : String
  found_str : String
  deriving DecidableEq, Repr

/-- `DateParser.find_date_mismatches` (src/date_parser.py lines 269-296):
for each found date that does not match the expected date within the
tolerance, record a mismatch carrying the signed day difference
`(found - expected).days`. -/
def find_date_mismatches (expected_date : Datetime) :
    List Datetime → Int → List DateMismatch
  | [], _ => []
  | found_date :: rest, tolerance_days =>
    let tail := find_date_mismatches expected_date rest tolerance_days
    if compare_dates expected_date found_date tolerance_days then tail
    else
      { expected := expected_date
        found := found_date
        difference_days := toDays found_date - toDays expected_date
        expected_str := format_date expected_date "uk"
        found_str := format_date found_date "uk" } :: tail

/-! ## Text scanning

The extraction methods of `DateParser` drive Python regular expressions via
`re.finditer(pattern, text, re.IGNORECASE)`.  Each of the source's fixed
patterns is embedded below as a dedicated matcher that implements exactly
that pattern's matching semantics (including greedy quantifiers with
backtracking where the pattern allows more than one parse), and a shared
`finditer` scanner that returns the non-overlapping leftmost matches.
Python's `\w`, `\s` and `\b` are modelled at ASCII (the inputs of interest
are ASCII text). -/

/-- Python regex `\s` (ASCII): space, tab, newline, carriage return,
vertical tab, form feed. -/
def isSpaceChar (c : Char) : Bool :=
  c = ' ' || c = '\t' || c = '\n' || c = '\r' || c = '\x0b' || c = '\x0c'

/-- Python regex `\w` (ASCII): letters, digits, underscore. -/
def isWordChar (c : Char) : Bool :=
  c.isAlphanum || c = '_'

/-- Python `str.strip()`: remove leading and trailing whitespace. -/
def pyStrip (s : String) : String :=
  String.mk (((s.data.dropWhile isSpaceChar).reverse.dropWhile isSpaceChar).reverse)

/-- Length of the longest prefix satisfying `p` (the span a greedy
character-class quantifier consumes). -/
def countWhile (p : Char → Bool) (cs : List Char) : Nat :=
  (cs.takeWhile p).length

/-- The first `k` characters exist and are all decimal digits. -/
def digitsFront (k : Nat) (cs : List Char) : Bool :=
  k ≤ cs.length && (cs.take k).all Char.isDigit

/-- Split a character list at every character satisfying `p` (separators are
dropped; empty components are kept). -/
def splitOnPred (p : Char → Bool) : List Char → List (List Char)
  | [] => [[]]
  | c :: rest =>
    match splitOnPred p rest with
    | [] => [[c]]
    | g :: gs => if p c then [] :: g :: gs else (c :: g) :: gs

/-- Numeric value of a digit string. -/
def digitsVal (cs : List Char) : Nat :=
  cs.foldl (fun acc c => acc * 10 + (c.toNat - '0'.toNat)) 0

/-- Modelled from the spec: the external `dateparser` library's resolution of
a two-digit year (dateutil-style pivot). -/
def twoDigitYear (y : Nat) : Nat :=
  if y < 50 then 2000 + y else 1900 + y

/-- Build a datetime if the fields form a real calendar date within Python
`datetime`'s representable years (1..9999). -/
def mkValidDate (y m d : Nat) : Option Datetime :=
  if 1 ≤ y ∧ y ≤ 9999 ∧ 1 ≤ m ∧ m ≤ 12 ∧ 1 ≤ d ∧ d ≤ daysInMonth y m then
    some ⟨y, m, d⟩
  else none

/-- Case-insensitive full match of a token against a month name, returning
the month number. -/
def monthFromName (tok : List Char) : Option Nat :=
  ((List.range monthNames.length).findSome? fun i =>
    if decide (tok.map Char.toLower = ((monthNames.getD i "").data.map Char.toLower)) then
      some (i + 1)
    else none)

/-- Numeric date phrase `D sep M sep Y` with `/` or `-` separators, day-first
(`DATE_ORDER = 'DMY'`), 2- or 4-digit year. -/
def tryNumericDate (cs : List Char) : Option Datetime :=
  match splitOnPred (fun c => c = '/' || c = '-') cs with
  | [dTok, mTok, yTok] =>
    if dTok.all Char.isDigit ∧ mTok.all Char.isDigit ∧ yTok.all Char.isDigit ∧
        1 ≤ dTok.length ∧ dTok.length ≤ 2 ∧ 1 ≤ mTok.length ∧ mTok.length ≤ 2 ∧
        (yTok.length = 2 ∨ yTok.length = 4) then
      let y := if yTok.length = 2 then twoDigitYear (digitsVal yTok) else digitsVal yTok
      mkValidDate y (digitsVal mTok) (digitsVal dTok)
    else none
  | _ => none

/-- Date phrase `D MonthName Y` (e.g. "4 March 1998"). -/
def tryDayMonthYear (cs : List Char) : Option Datetime :=
  match (splitOnPred isSpaceChar cs).filter (fun t => !t.isEmpty) with
  | [dTok, monTok, yTok] =>
    if dTok.all Char.isDigit ∧ 1 ≤ dTok.length ∧ dTok.length ≤ 2 ∧
        yTok.all Char.isDigit ∧ yTok.length = 4 then
      match monthFromName monTok with
      | some m => mkValidDate (digitsVal yTok) m (digitsVal dTok)
      | none => none
    else none
  | _ => none

/-- Date phrase `MonthName D, Y` (e.g. "March 4, 1998"; the comma after the
day is optional). -/
def tryMonthDayYear (cs : List Char) : Option Datetime :=
  match (splitOnPred isSpaceChar cs).filter (fun t => !t.isEmpty) with
  | [monTok, dTok, yTok] =>
    let dTok' := if dTok.getLastD ' ' = ',' then dTok.dropLast else dTok
    if dTok'.all Char.isDigit ∧ 1 ≤ dTok'.length ∧ dTok'.length ≤ 2 ∧
        yTok.all Char.isDigit ∧ yTok.length = 4 then
      match monthFromName monTok with
      | some m => mkValidDate (digitsVal yTok) m (digitsVal dTok')
      | none => none
    else none
  | _ => none

/-- Modelled from the spec: the external `dateparser.parse` call made by
`DateParser.parse_date` with settings `STRICT_PARSING = False`,
`PREFER_DAY_OF_MONTH = 'first'`, `DATE_ORDER = 'DMY'` — "a permissive
date-phrase parser configured for day-first (UK) ordering".  We model the
date-phrase shapes the extractor's regular expressions can feed it (numeric
day-first dates and the two month-name layouts), validated against the real
calendar; on any other input the model returns `none` (parse failure). -/
def dateparser_parse (s : String) : Option Datetime :=
  let cs := (pyStrip s).data
  tryNumericDate cs <|> tryDayMonthYear cs <|> tryMonthDayYear cs

/-- `DateParser.parse_date` (src/date_parser.py lines 124-153): delegate to
`dateparser`, then keep the result only when its year lies in the plausible
range 1800..2100; every failure path returns `None` (the `try/except`
swallows parser exceptions, which our total model needs no counterpart
for). -/
def parse_date (date_string : String) : Option Datetime :=
  match dateparser_parse date_string with
  | some parsed => if 1800 ≤ parsed.year ∧ parsed.year ≤ 2100 then some parsed else none
  | none => none

/-- Non-overlapping leftmost scan, the semantics of `re.finditer`: at each
position try the pattern matcher (which receives whether the previous
character was a word character, for `\b`); on a match of `n` characters emit
its result and resume after it, otherwise advance one character.  The fuel
is the text length, which bounds the number of steps. -/
def finditerAux {β : Type} (m : Bool → List Char → Option (Nat × β)) :
    Nat → Bool → List Char → List β
  | 0, _, _ => []
  | _ + 1, _, [] => []
  | fuel + 1, prevW, c :: cs =>
    match m prevW (c :: cs) with
    | some (n, out) =>
      if n = 0 then out :: finditerAux m fuel (isWordChar c) cs
      else
        out :: finditerAux m fuel (isWordChar (((c :: cs).take n).getLastD ' '))
          ((c :: cs).drop n)
    | none => finditerAux m fuel (isWordChar c) cs

/-- Run a pattern matcher over a whole text, `re.finditer` style. -/
def finditer {β : Type} (m : Bool → List Char → Option (Nat × β)) (text : String) :
    List β :=
  finditerAux m text.data.length false text.data

/-- Matcher for the numeric date patterns
`\b(\d{1,2}) SEP (\d{1,2}) SEP (\d{4})\b` (DATE_PATTERNS[0]) and
`\b(\d{1,2}) SEP (\d{1,2}) SEP (\d{2})\b` (DATE_PATTERNS[3]) — where `SEP`
stands for the source's slash-or-hyphen character class — parameterised by
the year length.  `\d{1,2}` is greedy, so two digits are tried before one;
the leading `\b` before a digit holds exactly when the previous character is
not a word character, and the trailing `\b` after a digit holds exactly when
the next character (if any) is not a word character.  Returns the consumed
length and `group(0)`. -/
def matchNumeric (yearLen : Nat) (prevW : Bool) (cs : List Char) :
    Option (Nat × String) :=
  if prevW then none
  else
    [2, 1].findSome? fun k1 =>
      if digitsFront k1 cs then
        match cs.drop k1 with
        | sep1 :: r2 =>
          if sep1 = '/' || sep1 = '-' then
            [2, 1].findSome? fun k2 =>
              if digitsFront k2 r2 then
                match r2.drop k2 with
                | sep2 :: r4 =>
                  if sep2 = '/' || sep2 = '-' then
                    if digitsFront yearLen r4 &&
                        (match r4.drop yearLen with
                         | [] => true
                         | c :: _ => !isWordChar c) then
                      let n := k1 + 1 + k2 + 1 + yearLen
                      some (n, String.mk (cs.take n))
                    else none
                  else none
                | [] => none
              else none
          else none
        | [] => none
      else none

/-- Case-insensitive month-name alternation
`(January|February|...|December)` at the head of the text, returning the
month number and matched length (alternatives tried in the listed order, as
a regex alternation does). -/
def matchMonthCI (cs : List Char) : Option (Nat × Nat) :=
  (List.range monthNames.length).findSome? fun i =>
    let nd := (monthNames.getD i "").data
    if nd.length ≤ cs.length &&
        decide ((cs.take nd.length).map Char.toLower = nd.map Char.toLower) then
      some (i + 1, nd.length)
    else none

/-- Matcher for DATE_PATTERNS[1]:
`\b(\d{1,2})\s+(January|...|December)\s+(\d{4})\b`. -/
def matchDMonthY (prevW : Bool) (cs : List Char) : Option (Nat × String) :=
  if prevW then none
  else
    [2, 1].findSome? fun k1 =>
      if digitsFront k1 cs then
        let r1 := cs.drop k1
        let s1 := countWhile isSpaceChar r1
        if s1 = 0 then none
        else
          match matchMonthCI (r1.drop s1) with
          | some (_, ml) =>
            let r3 := (r1.drop s1).drop ml
            let s2 := countWhile isSpaceChar r3
            if s2 = 0 then none
            else
              let r4 := r3.drop s2
              if digitsFront 4 r4 &&
                  (match r4.drop 4 with
                   | [] => true
                   | c :: _ => !isWordChar c) then
                let n := k1 + s1 + ml + s2 + 4
                some (n, String.mk (cs.take n))
              else none
          | none => none
      else none

/-- Matcher for DATE_PATTERNS[2]:
`\b(January|...|December)\s+(\d{1,2}),?\s+(\d{4})\b` (the greedy `,?` tries
the comma before omitting it). -/
def matchMonthDY (prevW : Bool) (cs : List Char) : Option (Nat × String) :=
  if prevW then none
  else
    match matchMonthCI cs with
    | some (_, ml) =>
      let r1 := cs.drop ml
      let s1 := countWhile isSpaceChar r1
      if s1 = 0 then none
      else
        let r2 := r1.drop s1
        [2, 1].findSome? fun k =>
          if digitsFront k r2 then
            let r3 := r2.drop k
            let tryRest : List Char → Nat → Option (Nat × String) := fun r5 commaLen =>
              let s2 := countWhile isSpaceChar r5
              if s2 = 0 then none
              else
                let r6 := r5.drop s2
                if digitsFront 4 r6 &&
                    (match r6.drop 4 with
                     | [] => true
                     | c :: _ => !isWordChar c) then
                  let n := ml + s1 + k + commaLen + s2 + 4
                  some (n, String.mk (cs.take n))
                else none
            match r3 with
            | ',' :: r4 => tryRest r4 1 <|> tryRest r3 0
            | _ => tryRest r3 0
          else none
    | none => none

/-- Matcher for one context pattern of `DateParser.CONTEXT_PATTERNS`.  Every
context pattern has the shape `LITERAL[:\s]+([^\n]{5,30})` where `LITERAL`
is a case-insensitive literal phrase, possibly with an embedded alternation
or optional piece; `lits` lists the concrete literal alternatives in the
order the regex tries them.  `[:\s]+` is greedy and backtracks (giving
characters back to the capture group) until the capture group can take at
least 5 characters; the capture group greedily takes up to 30 non-newline
characters.  Returns the consumed length and `group(1)`. -/
def matchContextPattern (lits : List String) (_prevW : Bool) (cs : List Char) :
    Option (Nat × String) :=
  lits.findSome? fun lit =>
    let ld := lit.data
    if ld.length ≤ cs.length &&
        decide ((cs.take ld.length).map Char.toLower = ld.map Char.toLower) then
      let r1 := cs.drop ld.length
      let run := countWhile (fun c => c = ':' || isSpaceChar c) r1
      (List.range run).findSome? fun t =>
        let j := run - t
        let cap := ((r1.drop j).takeWhile (fun c => c ≠ '\n')).take 30
        if 5 ≤ cap.length then some (ld.length + j + cap.length, String.mk cap)
        else none
    else none

/-- `DateParser.DATE_PATTERNS` (src/date_parser.py lines 14-26), as matchers
in source order. -/
def DATE_MATCHERS : List (Bool → List Char → Option (Nat × String)) :=
  [matchNumeric 4, matchDMonthY, matchMonthDY, matchNumeric 2]

/-- `DateParser.CONTEXT_PATTERNS` (src/date_parser.py lines 29-48): for each
context, the patterns' literal heads in source order; a pattern whose
literal head contains an alternation or optional piece is listed with its
alternatives in the order the regex tries them
(`changed (?:its name )?on`, `effective (?:date|from)`). -/
def CONTEXT_PATTERNS : List (String × List (List String)) :=
  [("incorporation",
    [["date of incorporation"], ["incorporated on"], ["incorporation date"]]),
   ("name_change",
    [["date of change"], ["changed its name on", "changed on"],
     ["effective date", "effective from"]]),
   ("registration",
    [["date of registration"], ["registered on"]]),
   ("filing",
    [["filed on"], ["filing date"]])]

/-- Dictionary lookup `CONTEXT_PATTERNS.get(context)`. -/
def lookupContextPatterns (context : String) : Option (List (List String)) :=
  (CONTEXT_PATTERNS.find? (fun p => p.1 == context)).map Prod.snd

/-- `DateParser._extract_with_context` (src/date_parser.py lines 78-100):
run every pattern of the context over the text, strip each captured group
and parse it, keeping the successfully parsed dates in scan order. -/
def extract_with_context (text : String) (context : String) : List Datetime :=
  match lookupContextPatterns context with
  | some pats =>
    pats.flatMap fun lits =>
      (finditer (matchContextPattern lits) text).filterMap fun captured =>
        parse_date (pyStrip captured)
  | none => []

/-- `DateParser._extract_all_dates` (src/date_parser.py lines 102-122): run
every generic date pattern over the text, parse each `group(0)`, keeping
the successfully parsed dates in scan order. -/
def extract_all_dates (text : String) : List Datetime :=
  DATE_MATCHERS.flatMap fun m => (finditer m text).filterMap parse_date

/-- The context-scoped portion of `DateParser.extract_dates`: the
context-specific extraction runs only when a context is supplied, is truthy
(Python `if context and ...`), and is a known key of `CONTEXT_PATTERNS`. -/
def contextDates (text : String) (context : Option String) : List Datetime :=
  match context with
  | some c =>
    if c ≠ "" ∧ (lookupContextPatterns c).isSome then extract_with_context text c
    else []
  | none => []

/-- `DateParser.extract_dates` (src/date_parser.py lines 50-76): append the
context-scoped dates and the generic-pattern dates, remove exact duplicates
(`list(set(dates))`), and sort ascending.  Python's `set` round-trip
followed by `.sort()` produces the sorted list of the distinct values,
which `dedup` followed by a sort realises (the `set`'s intermediate order
is irrelevant because sorting under the total date order determines the
list uniquely). -/
def extract_dates (text : String) (context : Option String) : List Datetime :=
  let dates := contextDates text context ++ extract_all_dates text
  List.insertionSort dtLe dates.dedup

/-- `DateParser.extract_incorporation_date` (src/date_parser.py lines
227-238): first context-extracted incorporation date, if any. -/
def extract_incorporation_date (text : String) : Option Datetime :=
  (extract_with_context text "incorporation").head?

/-- One entry of the list returned by `DateParser.extract_date_ranges`. -/
structure DateRange where
  start_date : Datetime
  end_date : Datetime
  text : String
  deriving DecidableEq, Repr

/-- The tail `(?:\s+\w+\s+\d{4})?` of a range endpoint in
`DateParser.extract_date_ranges`'s pattern: whitespace, a word, whitespace,
four digits.  All three quantifiers are forced to their greedy spans
(adjacent character classes are disjoint), so the group matches at most one
way; returns the consumed length. -/
def matchRangeTail (cs : List Char) : Option Nat :=
  let s1 := countWhile isSpaceChar cs
  if s1 = 0 then none
  else
    let r1 := cs.drop s1
    let w := countWhile isWordChar r1
    if w = 0 then none
    else
      let r2 := r1.drop w
      let s2 := countWhile isSpaceChar r2
      if s2 = 0 then none
      else if digitsFront 4 (r2.drop s2) then some (s1 + w + s2 + 4)
      else none

/-- Matcher for `DateParser.extract_date_ranges`'s pattern
`from\s+([^\s]+(?:\s+\w+\s+\d{4})?)\s+to\s+([^\s]+(?:\s+\w+\s+\d{4})?)`
(case-insensitive).  Each `[^\s]+` is followed in every continuation by
`\s+`, so it is forced to its maximal span; the optional tail is greedy, so
the tail-present parse of the first endpoint is tried before the
tail-absent one, falling back when the rest of the pattern cannot match.
Returns the consumed length and `(group(1), group(2), group(0))`. -/
def matchFromTo (_prevW : Bool) (cs : List Char) :
    Option (Nat × (String × String × String)) :=
  if 4 ≤ cs.length && decide ((cs.take 4).map Char.toLower = "from".data) then
    let r0 := cs.drop 4
    let s0 := countWhile isSpaceChar r0
    if s0 = 0 then none
    else
      let r1 := r0.drop s0
      let w1 := countWhile (fun c => !isSpaceChar c) r1
      if w1 = 0 then none
      else
        let cont : Nat → Option (Nat × Nat × Nat) := fun aLen =>
          let rA := r1.drop aLen
          let s1 := countWhile isSpaceChar rA
          if s1 = 0 then none
          else
            let r2 := rA.drop s1
            if 2 ≤ r2.length && decide ((r2.take 2).map Char.toLower = "to".data) then
              let r3 := r2.drop 2
              let s2 := countWhile isSpaceChar r3
              if s2 = 0 then none
              else
                let r4 := r3.drop s2
                let v1 := countWhile (fun c => !isSpaceChar c) r4
                if v1 = 0 then none
                else
                  let bLen :=
                    match matchRangeTail (r4.drop v1) with
                    | some k => v1 + k
                    | none => v1
                  some (s1 + 2 + s2 + bLen, s1 + 2 + s2, bLen)
            else none
        let attempt : Nat → Option (Nat × (String × String × String)) := fun aLen =>
          match cont aLen with
          | some (contLen, bOff, bLen) =>
            let n := 4 + s0 + aLen + contLen
            some (n, (String.mk (r1.take aLen),
                      String.mk (((r1.drop aLen).drop bOff).take bLen),
                      String.mk (cs.take n)))
          | none => none
        (match matchRangeTail (r1.drop w1) with
         | some k => attempt (w1 + k)
         | none => none) <|> attempt w1
  else none

/-- `DateParser.extract_date_ranges` (src/date_parser.py lines 155-185):
scan for "from X to Y" phrases; strip and parse both captured endpoints and
keep the range only when both parse. -/
def extract_date_ranges (text : String) : List DateRange :=
  (finditer matchFromTo text).filterMap fun g =>
    match parse_date (pyStrip g.1), parse_date (pyStrip g.2.1) with
    | some sd, some ed => some ⟨sd, ed, g.2.2⟩
    | _, _ => none

/-- `DateParser.validate_date_sequence` (src/date_parser.py lines 253-267):
compare the list with its sorted copy.  Python's `sorted` is a stable sort
under the `datetime` order `dtLe`; since `dtLe` is a total order on dates,
every correct sort produces the same list, which we realise with
`List.insertionSort`.  (The source's `len(dates) <= 1` early return is
subsumed: sorting a list of at most one element is the identity.) -/
def validate_date_sequence (dates : List Datetime) : Bool :=
  decide (dates = List.insertionSort dtLe dates)

/-! ## Scan orchestration (src/app.py, route handler `scan_companies`)

We embed the specific-mode control flow of the `/api/scan` handler: API-key
validation, company-number normalization, the single-company GitHub-cache
consultation, and the fall-through to a fresh batch scan.  The
`scan_mode == 'filtered'` branch (which resolves company numbers by a
registry search instead of taking them from the request) is outside the
modelled path; the claims below concern requests that name their companies.

The external collaborators (`GitHubStorage`, `BatchProcessor`) live outside
`src/`, so they are modelled from the spec as an environment of pure
functions: per the spec's CacheStore contract, "a failed read (store
unreachable) must degrade to a cache miss, never to an error that aborts
the scan", so cache reads return `Option` (with `none` covering both
absence and failure) and never raise.  Side effects that matter to the
claims (cache consultations, fresh fetches) are recorded as an event
trace.  The response assembly keeps the fields the claims mention
(success, HTTP status, cache provenance); CSV/GitHub-push bookkeeping, which
is wrapped in its own exception absorbers in the source, is elided. -/

/-- Python `str.zfill(width)` (used at src/app.py line 172): if the string
is already at least `width` long, return it unchanged; otherwise left-pad
with `'0'`, inserting the padding after a leading sign character if one is
present. -/
def zfill (width : Nat) (s : String) : String :=
  if width ≤ s.length then s
  else
    match s.data with
    | c :: rest =>
      if c = '+' ∨ c = '-' then
        String.mk (c :: (List.replicate (width - s.length) '0' ++ rest))
      else String.mk (List.replicate (width - s.length) '0' ++ s.data)
    | [] => String.mk (List.replicate width '0')

/-- The request fields of `/api/scan` that the modelled path reads.  Python's
missing-key falsiness is modelled by the empty string for the API keys. -/
structure ScanRequest where
  company_numbers : List String
  use_github_cache : Bool
  active_directors_only : Bool
  use_ai : Bool
  ch_api_key : String
  xai_api_key : String
  deriving Repr

/-- Modelled from the spec: the external collaborators of the scan handler.
`cache_exists`/`cache_get` stand for `GitHubStorage.check_company_exists` /
`get_company_data` (keyed by company number and folder discriminator), with
`none` covering both a missing entry and a failed read ("treated as a cache
miss, never fatal"); `fetch` stands for `BatchProcessor.process_companies`
producing the fresh results payload. -/
structure ScanEnv where
  cache_exists : String → String → Bool
  cache_get : String → String → Option String
  fetch : List String → String

/-- Observable effects of a scan, in program order. -/
inductive ScanEvent where
  | cacheCheck (company folder : String)
  | cacheRead (company folder : String)
  | fetch (companies : List String)
  deriving DecidableEq, Repr

/-- Whether an event is a remote-cache consultation. -/
def ScanEvent.isCacheEvent : ScanEvent → Bool
  | .cacheCheck _ _ => true
  | .cacheRead _ _ => true
  | .fetch _ => false

/-- The company numbers an event mentions. -/
def ScanEvent.companies : ScanEvent → List String
  | .cacheCheck n _ => [n]
  | .cacheRead n _ => [n]
  | .fetch ns => ns

/-- The handler's HTTP outcome: an error response with a status code, or a
success payload tagged with whether it was served from the GitHub cache. -/
inductive ScanResponse where
  | httpError (status : Nat) (msg : String)
  | ok (from_github_cache : Bool) (payload : String)
  deriving DecidableEq, Repr

/-- The fresh-scan tail of the handler (src/app.py lines 217-370): run the
batch processor on the normalized numbers and assemble the success
response.  For a single-company request with the GitHub cache disabled, the
response assembly at line 368 reads `folder_suffix`, which is only ever
assigned inside the cache-enabled single-company block (line 182), so that
path raises `NameError` and the surrounding handler-wide `except` turns it
into a 500 response. -/
def freshScan (req : ScanRequest) (env : ScanEnv) (nums : List String) :
    ScanResponse :=
  if nums.length = 1 ∧ req.use_github_cache = false then
    .httpError 500 "NameError: folder_suffix is not defined"
  else .ok false (env.fetch nums)

/-- The `/api/scan` handler `scan_companies` (src/app.py lines 38-373),
specific-mode path, returning the response together with the trace of cache
and fetch effects in program order: validate the API keys; normalize every
requested number with `zfill 8`; reject an empty list; when the GitHub
cache is enabled and exactly one company is requested, consult the cache
(existence check, then read) and serve a hit; otherwise, and on any miss,
fall through to a fresh scan. -/
def scan_companies (req : ScanRequest) (env : ScanEnv) :
    ScanResponse × List ScanEvent :=
  if req.ch_api_key = "" then
    (.httpError 400 "Companies House API key is required.", [])
  else if req.use_ai = true ∧ req.xai_api_key = "" then
    (.httpError 400 "XAI API key is required when AI extraction is enabled.", [])
  else
    let nums := req.company_numbers.map (zfill 8)
    if nums.isEmpty then (.httpError 400 "No company numbers provided", [])
    else
      let folder_suffix :=
        if req.active_directors_only then "Only Active Directors" else "Directors"
      if req.use_github_cache = true ∧ nums.length = 1 then
        let company_number := nums.headD ""
        if env.cache_exists company_number folder_suffix then
          match env.cache_get company_number folder_suffix with
          | some cached =>
            (.ok true cached,
             [.cacheCheck company_number folder_suffix,
              .cacheRead company_number folder_suffix])
          | none =>
            (freshScan req env nums,
             [.cacheCheck company_number folder_suffix,
              .cacheRead company_number folder_suffix, .fetch nums])
        else
          (freshScan req env nums,
           [.cacheCheck company_number folder_suffix, .fetch nums])
      else (freshScan req env nums, [.fetch nums])

/-- Concrete environment with an empty (or unreachable) cache and a stub
batch processor, for evaluating the scan model on closed inputs. -/
def envFresh : ScanEnv :=
  { cache_exists := fun _ _ => false
    cache_get := fun _ _ => none
    fetch := fun _ => "fresh-results" }

/-- Concrete single-company scan request. -/
def reqSingle : ScanRequest :=
  { company_numbers := ["123"]
    use_github_cache := true
    active_directors_only := true
    use_ai := false
    ch_api_key := "key"
    xai_api_key := "" }

/-- Concrete two-company scan request. -/
def reqPair : ScanRequest :=
  { company_numbers := ["123", "456"]
    use_github_cache := true
    active_directors_only := true
    use_ai := false
    ch_api_key := "key"
    xai_api_key := "" }

/-! ## Shared lemmas -/

/-- Every date `parse_date` returns has its year in the plausible range
1800..2100 (the guard at src/date_parser.py line 147). -/
theorem parse_date_mem_range (s : String) (d : Datetime)
    (h : parse_date s = some d) : 1800 ≤ d.year ∧ d.year ≤ 2100 := by
  unfold parse_date at h
  cases hp : dateparser_parse s with
  | none => rw [hp] at h; exact absurd h (by simp)
  | some parsed =>
    rw [hp] at h
    dsimp only at h
    by_cases hy : 1800 ≤ parsed.year ∧ parsed.year ≤ 2100
    · rw [if_pos hy] at h
      cases h
      exact hy
    · rw [if_neg hy] at h
      exact absurd h (by simp)

/-- Every date produced by the generic-pattern pass comes from
`parse_date`. -/
theorem extract_all_dates_mem (text : String) (d : Datetime)
    (h : d ∈ extract_all_dates text) :
    ∃ s, parse_date s = some d := by
  unfold extract_all_dates at h
  obtain ⟨m, _, hmem⟩ := List.mem_flatMap.mp h
  obtain ⟨s, _, hs⟩ := List.mem_filterMap.mp hmem
  exact ⟨s, hs⟩

/-- Every date produced by the context-scoped pass comes from
`parse_date`. -/
theorem contextDates_mem (text : String) (context : Option String) (d : Datetime)
    (h : d ∈ contextDates text context) :
    ∃ s, parse_date s = some d := by
  unfold contextDates at h
  cases context with
  | none => exact absurd h (by simp)
  | some c =>
    simp only at h
    split at h
    · unfold extract_with_context at h
      split at h
      · obtain ⟨lits, _, hmem⟩ := List.mem_flatMap.mp h
        obtain ⟨s, _, hs⟩ := List.mem_filterMap.mp hmem
        exact ⟨pyStrip s, hs⟩
      · exact absurd h (by simp)
    · exact absurd h (by simp)

/-- Membership in an `extract_dates` result is membership in the appended
context-scoped and generic passes (dedup and sort preserve membership). -/
theorem mem_extract_dates_iff (text : String) (context : Option String)
    (d : Datetime) :
    d ∈ extract_dates text context ↔
      d ∈ contextDates text context ++ extract_all_dates text := by
  unfold extract_dates
  rw [List.mem_insertionSort, List.mem_dedup]

/-! ## Claims -/

/-- C1.  For every text and optional context, `extract_dates` returns a
duplicate-free list in ascending order whose members are exactly the union
of the context-scoped pass (run for a supplied known context) and the
generic-pattern pass. -/
theorem extract_dates_sorted_distinct (text : String) (context : Option String) :
    (extract_dates text context).Nodup ∧
    List.Chain' dtLe (extract_dates text context) ∧
    (∀ d : Datetime, d ∈ extract_dates text context ↔
      d ∈ contextDates text context ++ extract_all_dates text) := by
  unfold extract_dates
  refine ⟨?_, ?_, ?_⟩
  · exact ((List.perm_insertionSort dtLe _).nodup_iff).mpr
      (List.nodup_dedup (contextDates text context ++ extract_all_dates text))
  · exact (List.chain'_iff_pairwise).mpr
      (List.sorted_insertionSort dtLe _)
  · intro d
    exact mem_extract_dates_iff text context d

/-- Witness for C1 at a concrete text: the properties hold of the one-date
extraction from "01/02/2003". -/
theorem extract_dates_sorted_distinct_witness :
    (extract_dates "01/02/2003" none).Nodup ∧
    List.Chain' dtLe (extract_dates "01/02/2003" none) ∧
    (∀ d : Datetime, d ∈ extract_dates "01/02/2003" none ↔
      d ∈ contextDates "01/02/2003" none ++ extract_all_dates "01/02/2003") :=
  extract_dates_sorted_distinct "01/02/2003" none

/-- C2.  On the exact text "Date of incorporation: 04/03/1998" with context
"incorporation", `extract_dates` returns exactly one date, 4 March 1998
(day-first parsing), even though the context-scoped pattern and the generic
numeric pattern each independently yield that same date, as the second and
third conjuncts show: deduplication collapses the two occurrences. -/
theorem extract_dates_incorporation_example :
    extract_dates "Date of incorporation: 04/03/1998" (some "incorporation") =
      [⟨1998, 3, 4⟩] ∧
    contextDates "Date of incorporation: 04/03/1998" (some "incorporation") =
      [⟨1998, 3, 4⟩] ∧
    extract_all_dates "Date of incorporation: 04/03/1998" = [⟨1998, 3, 4⟩] := by
  refine ⟨by decide, by decide, by decide⟩

/-- C3.  Any parsed date whose year falls outside 1800..2100 is silently
dropped by `parse_date` (it returns `none`, not the date and not an error),
and consequently `extract_dates` on the text "31/12/9999" — whose sole
pattern match parses to year 9999 — contributes no date at all. -/
theorem parse_date_rejects_out_of_range :
    (∀ (s : String) (d : Datetime), dateparser_parse s = some d →
      (d.year < 1800 ∨ 2100 < d.year) → parse_date s = none) ∧
    extract_dates "31/12/9999" none = [] := by
  constructor
  · intro s d h hy
    unfold parse_date
    rw [h]
    dsimp only
    rw [if_neg (by omega)]
  · decide

/-- Witness for C3: the parser model really does produce 31 December 9999
for "31/12/9999", and `parse_date` drops it. -/
theorem parse_date_rejects_out_of_range_witness :
    parse_date "31/12/9999" = none :=
  parse_date_rejects_out_of_range.1 "31/12/9999" ⟨9999, 12, 31⟩ (by decide)
    (by decide)

/-- C4.  `compare_dates` with tolerance 0 holds exactly on equal calendar
days (our datetimes are calendar days, so same-day equals equality); with a
positive tolerance it holds exactly when the absolute day difference is at
most the tolerance; and at tolerance 0 it is reflexive and symmetric. -/
theorem compare_dates_spec :
    (∀ a b : Datetime, compare_dates a b 0 = true ↔ a = b) ∧
    (∀ (a b : Datetime) (t : Int), 0 < t →
      (compare_dates a b t = true ↔ ((toDays a - toDays b).natAbs : Int) ≤ t)) ∧
    (∀ d : Datetime, compare_dates d d 0 = true) ∧
    (∀ a b : Datetime, compare_dates a b 0 = compare_dates b a 0) := by
  refine ⟨?_, ?_, ?_, ?_⟩
  · intro a b
    simp [compare_dates]
  · intro a b t ht
    unfold compare_dates
    rw [if_neg (by omega)]
    simp
  · intro d
    simp [compare_dates]
  · intro a b
    unfold compare_dates
    rw [if_pos rfl, if_pos rfl]
    exact decide_eq_decide.mpr ⟨Eq.symm, Eq.symm⟩

/-- Witness for C4's positive-tolerance clause at concrete dates: 1 and 3
January 2020 are within a 2-day tolerance. -/
theorem compare_dates_spec_witness :
    compare_dates ⟨2020, 1, 1⟩ ⟨2020, 1, 3⟩ 2 = true :=
  (compare_dates_spec.2.1 ⟨2020, 1, 1⟩ ⟨2020, 1, 3⟩ 2 (by decide)).mpr (by decide)

/-- C5.  `find_date_mismatches` yields one discrepancy per found date that
fails the tolerance comparison, carrying the signed day difference (found
minus expected); at expected 2020-01-01, found [2020-01-02], tolerance 0,
it yields exactly one discrepancy with `difference_days = 1`. -/
theorem find_date_mismatches_spec :
    (∀ (e : Datetime) (fs : List Datetime) (t : Int),
      find_date_mismatches e fs t =
        (fs.filter (fun f => !compare_dates e f t)).map (fun f =>
          { expected := e, found := f,
            difference_days := toDays f - toDays e,
            expected_str := format_date e "uk",
            found_str := format_date f "uk" })) ∧
    find_date_mismatches ⟨2020, 1, 1⟩ [⟨2020, 1, 2⟩] 0 =
      [{ expected := ⟨2020, 1, 1⟩, found := ⟨2020, 1, 2⟩, difference_days := 1,
         expected_str := "01/01/2020", found_str := "02/01/2020" }] := by
  constructor
  · intro e fs t
    induction fs with
    | nil => rfl
    | cons f fs ih =>
      cases h : compare_dates e f t <;>
        simp [find_date_mismatches, h, ih]
  · decide

/-- C6.  `validate_date_sequence` is true exactly of the lists that are
already in non-decreasing order (adjacent pairs ordered under the datetime
order; empty and singleton lists are vacuously ordered). -/
theorem validate_date_sequence_iff (dates : List Datetime) :
    validate_date_sequence dates = true ↔ List.Chain' dtLe dates := by
  unfold validate_date_sequence
  rw [decide_eq_true_iff]
  constructor
  · intro h
    rw [List.chain'_iff_pairwise]
    have hs := List.sorted_insertionSort dtLe dates
    rw [← h] at hs
    exact hs
  · intro h
    exact (List.Sorted.insertionSort_eq (List.chain'_iff_pairwise.mp h)).symm

/-- Witness for C6 at a concrete list: a two-element ascending list
validates, and the theorem transports that to orderedness. -/
theorem validate_date_sequence_iff_witness :
    List.Chain' dtLe [(⟨2020, 1, 1⟩ : Datetime), ⟨2020, 1, 2⟩] :=
  (validate_date_sequence_iff [⟨2020, 1, 1⟩, ⟨2020, 1, 2⟩]).mp (by decide)

/-- C10.  `parse_date` is total (it returns `none` or a date — the model is
a total function into `Option`, mirroring the source's catch-all
`try/except`), every date it returns has year in 1800..2100, and therefore
every date in an `extract_dates` or `extract_date_ranges` result is in that
range, while `find_date_mismatches` only ever repackages its input dates
(so its results derived from parsed text stay in range too). -/
theorem parse_date_total_and_in_range :
    (∀ (s : String) (d : Datetime), parse_date s = some d →
      1800 ≤ d.year ∧ d.year ≤ 2100) ∧
    (∀ (text : String) (context : Option String) (d : Datetime),
      d ∈ extract_dates text context → 1800 ≤ d.year ∧ d.year ≤ 2100) ∧
    (∀ (text : String) (r : DateRange), r ∈ extract_date_ranges text →
      (1800 ≤ r.start_date.year ∧ r.start_date.year ≤ 2100) ∧
      (1800 ≤ r.end_date.year ∧ r.end_date.year ≤ 2100)) ∧
    (∀ (e : Datetime) (fs : List Datetime) (t : Int) (m : DateMismatch),
      m ∈ find_date_mismatches e fs t → m.expected = e ∧ m.found ∈ fs) := by
  refine ⟨parse_date_mem_range, ?_, ?_, ?_⟩
  · intro text context d hd
    rcases List.mem_append.mp
        ((mem_extract_dates_iff text context d).mp hd) with h | h
    · obtain ⟨s, hs⟩ := contextDates_mem text context d h
      exact parse_date_mem_range s d hs
    · obtain ⟨s, hs⟩ := extract_all_dates_mem text d h
      exact parse_date_mem_range s d hs
  · intro text r hr
    unfold extract_date_ranges at hr
    obtain ⟨g, _, hg⟩ := List.mem_filterMap.mp hr
    cases hsd : parse_date (pyStrip g.1) with
    | none => rw [hsd] at hg; exact absurd hg (by simp)
    | some sd =>
      cases hed : parse_date (pyStrip g.2.1) with
      | none => rw [hsd, hed] at hg; exact absurd hg (by simp)
      | some ed =>
        rw [hsd, hed] at hg
        cases hg
        exact ⟨parse_date_mem_range _ sd hsd, parse_date_mem_range _ ed hed⟩
  · intro e fs t m hm
    induction fs with
    | nil => exact absurd hm (by simp [find_date_mismatches])
    | cons f fs ih =>
      unfold find_date_mismatches at hm
      by_cases hc : compare_dates e f t = true
      · rw [if_pos hc] at hm
        obtain ⟨he, hf⟩ := ih hm
        exact ⟨he, List.mem_cons_of_mem f hf⟩
      · rw [if_neg hc] at hm
        rcases List.mem_cons.mp hm with h | h
        · rw [h]
          exact ⟨rfl, List.mem_cons_self f fs⟩
        · obtain ⟨he, hf⟩ := ih h
          exact ⟨he, List.mem_cons_of_mem f hf⟩

/-- Witness for C10 at a concrete parse: "04/03/1998" parses and its year is
in range. -/
theorem parse_date_total_and_in_range_witness :
    1800 ≤ (Datetime.mk 1998 3 4).year ∧ (Datetime.mk 1998 3 4).year ≤ 2100 :=
  parse_date_total_and_in_range.1 "04/03/1998" ⟨1998, 3, 4⟩ (by decide)

/-! ## Scan-orchestration lemmas and claims -/

/-- String built from an explicit character list has that length. -/
theorem string_mk_length (l : List Char) : (String.mk l).length = l.length := rfl

/-- String length is the length of the underlying character list. -/
theorem string_length_data (s : String) : s.length = s.data.length := rfl

/-- `zfill` never shortens below the requested width. -/
theorem zfill_length_ge (w : Nat) (s : String) : w ≤ (zfill w s).length := by
  unfold zfill
  by_cases h : w ≤ s.length
  · rw [if_pos h]
    exact h
  · rw [if_neg h]
    cases hd : s.data with
    | nil =>
      simp [string_mk_length]
    | cons c rest =>
      have hlen : s.length = rest.length + 1 := by
        rw [string_length_data, hd]
        rfl
      dsimp only
      by_cases hc : c = '+' ∨ c = '-'
      · rw [if_pos hc]
        simp [string_mk_length]
        omega
      · rw [if_neg hc]
        simp [string_mk_length, string_length_data, hd]
        omega

/-- `zfill` leaves a string that is already wide enough unchanged. -/
theorem zfill_of_le (w : Nat) (s : String) (h : w ≤ s.length) : zfill w s = s := by
  unfold zfill
  rw [if_pos h]

/-- The `headD` of a nonempty list is a member. -/
theorem headD_mem_of_ne_nil {α : Type} (l : List α) (dflt : α) (h : l ≠ []) :
    l.headD dflt ∈ l := by
  cases l with
  | nil => exact absurd rfl h
  | cons a t => exact List.mem_cons_self a t

/-- Every company number a scan event mentions is one of the request's
numbers normalized by `zfill 8` (the normalization at src/app.py line 172
happens before the cache block and before the fresh fetch). -/
theorem scan_events_companies (req : ScanRequest) (env : ScanEnv) :
    ∀ e ∈ (scan_companies req env).2, ∀ n ∈ e.companies,
      n ∈ req.company_numbers.map (zfill 8) := by
  intro e he n hn
  unfold scan_companies at he
  by_cases h1 : req.ch_api_key = ""
  · rw [if_pos h1] at he
    simp at he
  rw [if_neg h1] at he
  by_cases h2 : req.use_ai = true ∧ req.xai_api_key = ""
  · rw [if_pos h2] at he
    simp at he
  rw [if_neg h2] at he
  dsimp only at he
  by_cases h3 : (req.company_numbers.map (zfill 8)).isEmpty = true
  · rw [if_pos h3] at he
    simp at he
  rw [if_neg h3] at he
  have hne : req.company_numbers.map (zfill 8) ≠ [] := by
    intro hnil
    rw [hnil] at h3
    exact h3 rfl
  have hhead : (req.company_numbers.map (zfill 8)).headD "" ∈
      req.company_numbers.map (zfill 8) :=
    headD_mem_of_ne_nil _ "" hne
  by_cases h4 : req.use_github_cache = true ∧
      (req.company_numbers.map (zfill 8)).length = 1
  · rw [if_pos h4] at he
    by_cases h5 : env.cache_exists ((req.company_numbers.map (zfill 8)).headD "")
        (if req.active_directors_only = true then "Only Active Directors"
         else "Directors") = true
    · rw [if_pos h5] at he
      cases hg : env.cache_get ((req.company_numbers.map (zfill 8)).headD "")
          (if req.active_directors_only = true then "Only Active Directors"
           else "Directors") with
      | some cached =>
        rw [hg] at he
        dsimp only at he
        simp only [List.mem_cons, List.not_mem_nil, or_false] at he
        rcases he with he | he
        · rw [he] at hn
          simp only [ScanEvent.companies, List.mem_singleton] at hn
          rw [hn]
          exact hhead
        · rw [he] at hn
          simp only [ScanEvent.companies, List.mem_singleton] at hn
          rw [hn]
          exact hhead
      | none =>
        rw [hg] at he
        dsimp only at he
        simp only [List.mem_cons, List.not_mem_nil, or_false] at he
        rcases he with he | he | he
        · rw [he] at hn
          simp only [ScanEvent.companies, List.mem_singleton] at hn
          rw [hn]
          exact hhead
        · rw [he] at hn
          simp only [ScanEvent.companies, List.mem_singleton] at hn
          rw [hn]
          exact hhead
        · rw [he] at hn
          exact hn
    · rw [if_neg h5] at he
      simp only [List.mem_cons, List.not_mem_nil, or_false] at he
      rcases he with he | he
      · rw [he] at hn
        simp only [ScanEvent.companies, List.mem_singleton] at hn
        rw [hn]
        exact hhead
      · rw [he] at hn
        exact hn
  · rw [if_neg h4] at he
    simp only [List.mem_cons, List.not_mem_nil, or_false] at he
    rw [he] at hn
    exact hn

/-- C7.  Company-number normalization (`zfill` to width 8) is idempotent on
every string, and in a specific-mode scan every company number that reaches
a cache lookup or the fresh fetch is the `zfill 8` normalization of a
requested number. -/
theorem normalize_idempotent_and_used_normalized :
    (∀ x : String, zfill 8 (zfill 8 x) = zfill 8 x) ∧
    (∀ (req : ScanRequest) (env : ScanEnv),
      ∀ e ∈ (scan_companies req env).2, ∀ n ∈ e.companies,
        n ∈ req.company_numbers.map (zfill 8)) :=
  ⟨fun x => zfill_of_le 8 (zfill 8 x) (zfill_length_ge 8 x),
   fun req env => scan_events_companies req env⟩

/-- Witness for C7 on a concrete scan: the fetch event of a single-company
scan mentions only the normalized number. -/
theorem normalize_idempotent_and_used_normalized_witness :
    "00000123" ∈ reqSingle.company_numbers.map (zfill 8) :=
  normalize_idempotent_and_used_normalized.2 reqSingle envFresh
    (.fetch ["00000123"]) (by decide) "00000123" (by decide)

/-- C8.  A scan naming more than one company never consults the remote
cache — its event trace contains no cache event — and (once the request's
keys pass validation) performs exactly one fresh fetch of all the
normalized requested numbers, even when cache use is enabled. -/
theorem multi_company_scan_skips_cache (req : ScanRequest) (env : ScanEnv)
    (hlen : 1 < req.company_numbers.length) :
    (∀ e ∈ (scan_companies req env).2, e.isCacheEvent = false) ∧
    (req.ch_api_key ≠ "" → (req.use_ai = true → req.xai_api_key ≠ "") →
      (scan_companies req env).2 =
        [.fetch (req.company_numbers.map (zfill 8))] ∧
      (scan_companies req env).1 =
        .ok false (env.fetch (req.company_numbers.map (zfill 8)))) := by
  have hmaplen : (req.company_numbers.map (zfill 8)).length =
      req.company_numbers.length := List.length_map _ _
  have hnotone : ¬(req.use_github_cache = true ∧
      (req.company_numbers.map (zfill 8)).length = 1) := by
    intro hc
    omega
  have hnotempty : ¬((req.company_numbers.map (zfill 8)).isEmpty = true) := by
    rw [List.isEmpty_iff_length_eq_zero]
    omega
  constructor
  · intro e he
    unfold scan_companies at he
    by_cases h1 : req.ch_api_key = ""
    · rw [if_pos h1] at he
      simp at he
    rw [if_neg h1] at he
    by_cases h2 : req.use_ai = true ∧ req.xai_api_key = ""
    · rw [if_pos h2] at he
      simp at he
    rw [if_neg h2] at he
    dsimp only at he
    rw [if_neg hnotempty, if_neg hnotone] at he
    simp only [List.mem_cons, List.not_mem_nil, or_false] at he
    rw [he]
    rfl
  · intro h1 h2
    unfold scan_companies
    rw [if_neg h1, if_neg (by
      intro hc
      exact h2 hc.1 hc.2)]
    dsimp only
    rw [if_neg hnotempty, if_neg hnotone]
    unfold freshScan
    rw [if_neg (by
      intro hc
      omega)]
    exact ⟨rfl, rfl⟩

/-- Witness for C8: a two-company request with the cache enabled skips the
cache and fetches both normalized numbers. -/
theorem multi_company_scan_skips_cache_witness :
    (scan_companies reqPair envFresh).2 =
      [.fetch ["00000123", "00000456"]] ∧
    (scan_companies reqPair envFresh).1 =
      .ok false (envFresh.fetch ["00000123", "00000456"]) :=
  (multi_company_scan_skips_cache reqPair envFresh (by decide)).2
    (by decide) (by decide)

/-- C9.  A single-company scan with caching enabled whose cache read fails
or finds nothing (the existence check is negative, or the read returns
nothing — the spec-modelled cache store signals unavailability as absence,
never as an exception) degrades to a cache miss: the scan performs the
fresh fetch and completes with a success response, not an error. -/
theorem single_company_cache_miss_degrades (req : ScanRequest) (env : ScanEnv)
    (hkey : req.ch_api_key ≠ "")
    (hxai : req.use_ai = true → req.xai_api_key ≠ "")
    (hlen : req.company_numbers.length = 1)
    (hcache : req.use_github_cache = true)
    (hmiss : env.cache_exists ((req.company_numbers.map (zfill 8)).headD "")
        (if req.active_directors_only = true then "Only Active Directors"
         else "Directors") = false ∨
      env.cache_get ((req.company_numbers.map (zfill 8)).headD "")
        (if req.active_directors_only = true then "Only Active Directors"
         else "Directors") = none) :
    (scan_companies req env).1 =
      .ok false (env.fetch (req.company_numbers.map (zfill 8))) ∧
    .fetch (req.company_numbers.map (zfill 8)) ∈ (scan_companies req env).2 := by
  have hmaplen : (req.company_numbers.map (zfill 8)).length =
      req.company_numbers.length := List.length_map _ _
  have hnotempty : ¬((req.company_numbers.map (zfill 8)).isEmpty = true) := by
    rw [List.isEmpty_iff_length_eq_zero]
    omega
  unfold scan_companies
  rw [if_neg hkey, if_neg (by
    intro hc
    exact hxai hc.1 hc.2)]
  dsimp only
  rw [if_neg hnotempty, if_pos ⟨hcache, by omega⟩]
  have hfresh : freshScan req env (req.company_numbers.map (zfill 8)) =
      .ok false (env.fetch (req.company_numbers.map (zfill 8))) := by
    unfold freshScan
    rw [if_neg (by
      intro hc
      rw [hcache] at hc
      exact absurd hc.2 (by simp))]
  rcases hmiss with hmiss | hmiss
  · rw [if_neg (by
      rw [hmiss]
      simp)]
    exact ⟨hfresh, by simp⟩
  · by_cases hex : env.cache_exists ((req.company_numbers.map (zfill 8)).headD "")
        (if req.active_directors_only = true then "Only Active Directors"
         else "Directors") = true
    · rw [if_pos hex, hmiss]
      exact ⟨hfresh, by simp⟩
    · rw [if_neg hex]
      exact ⟨hfresh, by simp⟩

/-- Witness for C9: a concrete single-company scan against an empty or
unreachable cache completes with the fresh-scan success response. -/
theorem single_company_cache_miss_degrades_witness :
    (scan_companies reqSingle envFresh).1 =
      .ok false (envFresh.fetch ["00000123"]) ∧
    ScanEvent.fetch ["00000123"] ∈ (scan_companies reqSingle envFresh).2 :=
  single_company_cache_miss_degrades reqSingle envFresh (by decide)
    (by decide) (by decide) (by decide) (Or.inl (by decide))

end SignalWatch
